import Mathlib

/-!
Shallow embedding of `querier/src/database.rs` (`QuerierDatabase`): an
admission-control gate that bounds the number of simultaneously live
namespace handles by a semaphore sized at construction time.

Two complementary models are developed:

* a sequential model of one execution of `QuerierDatabase::namespace`
  (`QuerierDatabase.namespaceCall`), faithful to the body of the Rust
  function: acquire a permit from the semaphore (suspending when none is
  available, failing only when the semaphore is closed), then resolve the
  schema, then either drop the permit (unknown namespace) or bundle it
  into a `QuerierNamespace` handle;

* a small-step state machine (`GState.step`) for the concurrent behaviour
  of the FIFO-fair `tokio::sync::Semaphore`: callers submit requests,
  requests holding a permit resolve their schema, and live handles may be
  dropped, releasing their permit to the longest-waiting queued request.

Rust panics (`assert!`, `expect`) are modelled as `Except.error` /
a distinguished `panicked` outcome; `Option` return values stay `Option`.
-/

namespace Querier

/-- Namespace names are plain strings (`&str` in the source). -/
abbrev Name := String

/-- Schema snapshot returned by the schema resolver; opaque to the gate. -/
structure NamespaceSchema where
  sid : Nat
deriving DecidableEq

/-- Namespace summary record returned by the catalog listing
(`data_types::Namespace`); only its name matters to this gate. -/
structure Namespace where
  name : Name
deriving DecidableEq

/-- Opaque metric registry collaborator (`metric::Registry`). -/
structure Registry where
  unit : Unit
deriving DecidableEq

/-- Opaque parquet storage collaborator (`ParquetStorage`). -/
structure ParquetStorage where
  unit : Unit
deriving DecidableEq

/-- Opaque query executor collaborator (`iox_query::exec::Executor`). -/
structure Executor where
  unit : Unit
deriving DecidableEq

/-- Opaque ingester connection collaborator (`dyn IngesterConnection`). -/
structure IngesterConnection where
  unit : Unit
deriving DecidableEq

/-- Backoff configuration (`backoff::BackoffConfig`); opaque. -/
structure BackoffConfig where
  unit : Unit
deriving DecidableEq

/-- `BackoffConfig::default()`. -/
def BackoffConfig.mkDefault : BackoffConfig := ⟨()⟩

/-- The catalog cache collaborator (`CatalogCache`), seen through the narrow
interfaces this gate uses: the schema resolver (`namespace().schema(name)`,
absent result means the namespace is unknown), the backing catalog's current
namespace list together with a transient-failure pattern for successive
listing attempts (`catalog().repositories().namespaces().list()` may fail
transiently; when attempt `i` succeeds it returns the full current list),
and the time provider passed through to constructed sub-objects. -/
structure CatalogCache where
  schemaOf : Name → Option NamespaceSchema
  catalogNamespaces : List Namespace
  listFails : Nat → Bool
  time_provider : Unit

/-- Adapter to create chunks (`ChunkAdapter`); the gate only builds it and
passes it on. Fields mirror the arguments of `ChunkAdapter::new`. -/
structure ChunkAdapter where
  catalog_cache : CatalogCache
  store : ParquetStorage
  metric_registry : Registry
  time_provider : Unit

/-- `ChunkAdapter::new(catalog_cache, store, metric_registry, time_provider)`. -/
def ChunkAdapter.new (catalog_cache : CatalogCache) (store : ParquetStorage)
    (metric_registry : Registry) (time_provider : Unit) : ChunkAdapter :=
  { catalog_cache, store, metric_registry, time_provider }

/-- The circular query log (`QueryLog`); opaque apart from its construction
arguments. -/
structure QueryLog where
  size : Nat
  time_provider : Unit

/-- `QueryLog::new(size, time_provider)`. -/
def QueryLog.new (size : Nat) (time_provider : Unit) : QueryLog :=
  { size, time_provider }

/-- The number of entries to store in the circular query buffer log
(`QUERY_LOG_SIZE`). -/
def QUERY_LOG_SIZE : Nat := 10000

/-- An owned semaphore permit (`tokio::sync::OwnedSemaphorePermit`): a
move-only token; releasing happens when its owner is dropped. -/
structure OwnedSemaphorePermit where
  unit : Unit
deriving DecidableEq

/-- Database for the querier (`QuerierDatabase`). The
`query_execution_semaphore` field records the number of permits the
semaphore was created with (`Semaphore::new(max_concurrent_queries)`); the
semaphore's dynamic state lives in `SemState` / `GState` below. -/
structure QuerierDatabase where
  backoff_config : BackoffConfig
  catalog_cache : CatalogCache
  chunk_adapter : ChunkAdapter
  metric_registry : Registry
  exec : Executor
  ingester_connection : IngesterConnection
  query_log : QueryLog
  query_execution_semaphore : Nat

/-- The maximum value for `max_concurrent_queries` that is allowed
(`u16::MAX`). -/
def QuerierDatabase.MAX_CONCURRENT_QUERIES_MAX : Nat := 65535

/-- `QuerierDatabase::new`. The `assert!` guarding `max_concurrent_queries`
is modelled as `Except.error` carrying the panic message (a Rust panic
terminates the process; nothing recoverable is returned). On success the
chunk adapter and query log are built from the supplied collaborators and
the admission semaphore is created with exactly `max_concurrent_queries`
permits. -/
def QuerierDatabase.new (catalog_cache : CatalogCache) (metric_registry : Registry)
    (store : ParquetStorage) (exec : Executor) (ingester_connection : IngesterConnection)
    (max_concurrent_queries : Nat) : Except String QuerierDatabase :=
  if max_concurrent_queries ≤ QuerierDatabase.MAX_CONCURRENT_QUERIES_MAX then
    Except.ok
      { backoff_config := BackoffConfig.mkDefault
        catalog_cache := catalog_cache
        chunk_adapter :=
          ChunkAdapter.new catalog_cache store metric_registry catalog_cache.time_provider
        metric_registry := metric_registry
        exec := exec
        ingester_connection := ingester_connection
        query_log := QueryLog.new QUERY_LOG_SIZE catalog_cache.time_provider
        query_execution_semaphore := max_concurrent_queries }
  else
    Except.error ("`max_concurrent_queries` (" ++ toString max_concurrent_queries ++
      ") > `max_concurrent_queries_MAX` (" ++
      toString QuerierDatabase.MAX_CONCURRENT_QUERIES_MAX ++ ")")

/-- A namespace handle (`QuerierNamespace`): an admitted, schema-resolved
view of a namespace, exclusively owning one admission permit. -/
structure QuerierNamespace where
  chunk_adapter : ChunkAdapter
  schema : NamespaceSchema
  name : Name
  exec : Executor
  ingester_connection : IngesterConnection
  query_log : QueryLog
  permit : OwnedSemaphorePermit

/-- `QuerierNamespace::new`, with the argument order of the source call site. -/
def QuerierNamespace.new (chunk_adapter : ChunkAdapter) (schema : NamespaceSchema)
    (name : Name) (exec : Executor) (ingester_connection : IngesterConnection)
    (query_log : QueryLog) (permit : OwnedSemaphorePermit) : QuerierNamespace :=
  { chunk_adapter, schema, name, exec, ingester_connection, query_log, permit }

/-! ### Sequential model of one `namespace()` call -/

/-- Dynamic state of the admission semaphore as seen by a single
uncontended call: the number of available permits and the closed flag. -/
structure SemState where
  available : Nat
  closed : Bool
deriving DecidableEq

/-- Observable events of one execution of `QuerierDatabase::namespace`, in
program order. -/
inductive CallEv where
  | acquirePermit
  | schemaResolve (name : Name)
  | permitDrop
  | handleBuilt
deriving DecidableEq

/-- Outcome of one execution of `QuerierDatabase::namespace`: still
suspended on the semaphore, panicked (the `expect` on a closed semaphore
fired), or completed with an optional handle. -/
inductive NamespaceOutcome where
  | pending
  | panicked (msg : String)
  | done (result : Option QuerierNamespace)

/-- Result of one execution step of `QuerierDatabase::namespace`: the
outcome, the semaphore state after the call, and the trace of observable
events, in order. -/
structure CallResult where
  outcome : NamespaceOutcome
  sem : SemState
  trace : List CallEv

/-- One execution of `QuerierDatabase::namespace(name)`, translated from
the body of the Rust function:

1. `acquire_owned().await.expect("Semaphore should NOT be closed by now")`:
   errors (panics) exactly when the semaphore is closed; suspends while no
   permit is available; otherwise takes one permit.
2. `catalog_cache.namespace().schema(name).await?`: resolve the schema
   while holding the permit; on `None` the `?` returns `None` and the
   permit binding is dropped, restoring the permit to the pool.
3. otherwise build a `QuerierNamespace` that takes ownership of the permit. -/
def QuerierDatabase.namespaceCall (db : QuerierDatabase) (sem : SemState)
    (name : Name) : CallResult :=
  if sem.closed then
    { outcome := NamespaceOutcome.panicked ("Semaphore should NOT be closed by now")
      sem := sem
      trace := [] }
  else if sem.available = 0 then
    { outcome := NamespaceOutcome.pending, sem := sem, trace := [] }
  else
    let semHeld : SemState := { sem with available := sem.available - 1 }
    match db.catalog_cache.schemaOf name with
    | none =>
        { outcome := NamespaceOutcome.done none
          sem := { semHeld with available := semHeld.available + 1 }
          trace := [CallEv.acquirePermit, CallEv.schemaResolve name, CallEv.permitDrop] }
    | some schema =>
        { outcome := NamespaceOutcome.done (some (QuerierNamespace.new db.chunk_adapter
            schema name db.exec db.ingester_connection db.query_log ⟨()⟩))
          sem := semHeld
          trace := [CallEv.acquirePermit, CallEv.schemaResolve name, CallEv.handleBuilt] }

/-- The `QueryDatabaseProvider::db` trait implementation: the source body is
exactly `self.namespace(name).await`. -/
def QuerierDatabase.dbCall (db : QuerierDatabase) (sem : SemState) (name : Name) :
    CallResult :=
  db.namespaceCall sem name

/-! ### Small-step model of the semaphore-gated gateway

`tokio::sync::Semaphore` is fair: waiters are queued in FIFO order, an
acquire succeeds immediately only when permits are available and no waiter
is queued, and a released permit is handed to the front waiter when one
exists. Requests are identified by a numeric id chosen by the environment;
a request that has been granted a permit sits in `resolving` until the
schema resolver answers for it. -/

/-- One in-flight `namespace()` request: its id and the requested name. -/
structure Req where
  rid : Nat
  name : Name
deriving DecidableEq

/-- A live namespace handle in the step model: which request created it,
for which name, with which resolved schema. It owns one permit. -/
structure Handle where
  hid : Nat
  hname : Name
  hschema : NamespaceSchema
deriving DecidableEq

/-- Global state of one gateway instance: the immutable database object,
the semaphore's available permits and closed flag, the FIFO waiter queue,
the requests currently holding a permit and awaiting schema resolution,
the live handles, and the completions observed so far, in completion order
(request id paired with whether a handle was produced). -/
structure GState where
  db : QuerierDatabase
  available : Nat
  closed : Bool
  queue : List Req
  resolving : List Req
  handles : List Handle
  completions : List (Nat × Bool)

/-- Initial state of a gateway constructed by `new`: the semaphore starts
with `query_execution_semaphore` permits, is not closed, and nothing is
queued, resolving, live or completed. -/
def GState.init (db : QuerierDatabase) : GState :=
  { db := db
    available := db.query_execution_semaphore
    closed := false
    queue := []
    resolving := []
    handles := []
    completions := [] }

/-- Remove the first element satisfying `p`, returning it (if any) and the
remaining list. -/
def extractFirst (p : α → Bool) : List α → Option α × List α
  | [] => (none, [])
  | x :: xs =>
    if p x then (some x, xs)
    else
      let r := extractFirst p xs
      (r.1, x :: r.2)

/-- Releasing one permit (a dropped `OwnedSemaphorePermit`): with the FIFO
semantics of the tokio semaphore, the permit is handed to the front waiter
when one is queued (that waiter's acquire completes, so its request starts
resolving); otherwise the available count grows by one. -/
def GState.release (s : GState) : GState :=
  match s.queue with
  | [] => { s with available := s.available + 1 }
  | w :: rest => { s with queue := rest, resolving := s.resolving ++ [w] }

/-- A caller invokes `namespace(name)`: the acquire succeeds immediately
(consuming a permit, the request proceeds to schema resolution) exactly
when no waiter is queued and a permit is available; otherwise the request
joins the back of the FIFO waiter queue. -/
def GState.submit (s : GState) (r : Req) : GState :=
  if s.queue.isEmpty ∧ 0 < s.available then
    { s with available := s.available - 1, resolving := s.resolving ++ [r] }
  else
    { s with queue := s.queue ++ [r] }

/-- The schema resolver answers for request `rid` (which must be holding a
permit): on an unknown name the request completes absent and its permit is
released immediately; on a known name a handle owning the permit is
created and the request completes present. -/
def GState.resolveReq (s : GState) (rid : Nat) : GState :=
  match extractFirst (fun q => q.rid == rid) s.resolving with
  | (none, _) => s
  | (some r, rest) =>
    match s.db.catalog_cache.schemaOf r.name with
    | none =>
        let s' := GState.release { s with resolving := rest }
        { s' with completions := s'.completions ++ [(rid, false)] }
    | some sch =>
        { s with resolving := rest
                 handles := s.handles ++ [⟨rid, r.name, sch⟩]
                 completions := s.completions ++ [(rid, true)] }

/-- A caller drops the handle created by request `hid`: the handle ceases
to exist and its permit is released (the `OwnedSemaphorePermit` inside the
`QuerierNamespace` is dropped). Dropping an id with no live handle does
nothing. -/
def GState.dropHandle (s : GState) (hid : Nat) : GState :=
  match extractFirst (fun h => h.hid == hid) s.handles with
  | (none, _) => s
  | (some _, rest) => GState.release { s with handles := rest }

/-- Environment events driving one gateway instance. -/
inductive Event where
  | submit (r : Req)
  | resolveReq (rid : Nat)
  | dropHandle (hid : Nat)
deriving DecidableEq

/-- One step of the gateway state machine. -/
def GState.step (s : GState) : Event → GState
  | Event.submit r => s.submit r
  | Event.resolveReq rid => s.resolveReq rid
  | Event.dropHandle hid => s.dropHandle hid

/-- Run a sequence of events from a state. -/
def GState.run (s : GState) : List Event → GState
  | [] => s
  | e :: evs => (s.step e).run evs

/-! ### The retrying listing operation -/

/-- One listing attempt against the backing catalog
(`catalog.repositories().await.namespaces().list().await`): attempt `i`
fails transiently when `listFails i`, and otherwise returns the complete
current namespace list. -/
def listAttempt (c : CatalogCache) (i : Nat) : Except String (List Namespace) :=
  if c.listFails i then Except.error ("transient catalog error")
  else Except.ok c.catalogNamespaces

/-- `Backoff::retry_all_errors`: retry the operation on every error, with
backoff, indefinitely. The unbounded loop is observed for `fuel` attempts
starting at attempt `i`; `none` means the loop is still retrying after
`fuel` attempts — no error is ever surfaced. -/
def retryAllErrors (op : Nat → Except String α) : Nat → Nat → Option α
  | _, 0 => none
  | i, fuel + 1 =>
    match op i with
    | Except.ok v => some v
    | Except.error _ => retryAllErrors op (i + 1) fuel

/-- `QuerierDatabase::namespaces`: a fresh catalog read wrapped in
`retry_all_errors`, observed for `fuel` attempts. -/
def QuerierDatabase.namespaces (db : QuerierDatabase) (fuel : Nat) :
    Option (List Namespace) :=
  retryAllErrors (listAttempt db.catalog_cache) 0 fuel

/-- The listing operation invoked against a running gateway: it goes
through the database object only; the semaphore fields of the state play no
part. -/
def GState.namespacesOp (s : GState) (fuel : Nat) : Option (List Namespace) :=
  s.db.namespaces fuel

/-! ### Helper lemmas about the step machine -/

/-- Total permits accounted for by a state: available plus those held by
resolving requests plus those owned by live handles. -/
def permitSum (s : GState) : Nat :=
  s.available + s.resolving.length + s.handles.length

theorem extractFirst_cons_pos {p : α → Bool} {x : α} (xs : List α) (h : p x = true) :
    extractFirst p (x :: xs) = (some x, xs) := by
  simp [extractFirst, h]

theorem extractFirst_cons_neg {p : α → Bool} {x : α} (xs : List α) (h : p x = false) :
    extractFirst p (x :: xs) = ((extractFirst p xs).1, x :: (extractFirst p xs).2) := by
  simp [extractFirst, h]

theorem extractFirst_some_length {p : α → Bool} :
    ∀ {l rest : List α} {a : α}, extractFirst p l = (some a, rest) →
      rest.length + 1 = l.length := by
  intro l
  induction l with
  | nil => intro rest a h; simp [extractFirst] at h
  | cons x xs ih =>
    intro rest a h
    by_cases hp : p x
    · rw [extractFirst_cons_pos xs hp, Prod.mk.injEq] at h
      rw [← h.2]
      rfl
    · rw [extractFirst_cons_neg xs (by simpa using hp), Prod.mk.injEq] at h
      cases hr : extractFirst p xs with
      | mk f s =>
        have hf : f = some a := by rw [hr] at h; exact h.1
        have hs : rest = x :: s := by rw [hr] at h; exact h.2.symm
        have hxs : extractFirst p xs = (some a, s) := by rw [hr, hf]
        have := ih hxs
        simp only [hs, List.length_cons]
        omega

theorem extractFirst_none_of_all {p : α → Bool} :
    ∀ {l : List α}, (∀ x ∈ l, p x = false) → (extractFirst p l).1 = none := by
  intro l
  induction l with
  | nil => intro _; simp [extractFirst]
  | cons x xs ih =>
    intro h
    rw [extractFirst_cons_neg xs (h x (by simp))]
    exact ih fun y hy => h y (by simp [hy])

theorem extractFirst_append_of_all_neg {p : α → Bool} :
    ∀ {l₁ : List α} (l₂ : List α), (∀ x ∈ l₁, p x = false) →
      extractFirst p (l₁ ++ l₂) = ((extractFirst p l₂).1, l₁ ++ (extractFirst p l₂).2) := by
  intro l₁
  induction l₁ with
  | nil => intro l₂ _; simp
  | cons x xs ih =>
    intro l₂ h
    have hx : p x = false := h x (by simp)
    rw [List.cons_append, extractFirst_cons_neg _ hx, ih l₂ (fun y hy => h y (by simp [hy]))]
    simp

theorem extractFirst_nodup {f : α → Nat} {k : Nat} :
    ∀ {l rest : List α} {a : α}, (l.map f).Nodup →
      extractFirst (fun x => f x == k) l = (some a, rest) →
      ∀ x ∈ rest, (f x == k) = false := by
  intro l
  induction l with
  | nil => intro rest a _ h; simp [extractFirst] at h
  | cons y ys ih =>
    intro rest a hnd h
    rw [List.map_cons, List.nodup_cons] at hnd
    by_cases hp : f y = k
    · rw [extractFirst_cons_pos ys (by simp [hp]), Prod.mk.injEq] at h
      intro x hx
      rw [← h.2] at hx
      have hne : f x ≠ f y := by
        intro hc
        exact hnd.1 (hc ▸ List.mem_map_of_mem f hx)
      simp only [beq_eq_false_iff_ne, ne_eq]
      rw [← hp]
      exact hne
    · rw [extractFirst_cons_neg ys (by simp [hp]), Prod.mk.injEq] at h
      cases hr : extractFirst (fun x => f x == k) ys with
      | mk g s =>
        have hg : g = some a := by rw [hr] at h; exact h.1
        have hs : rest = y :: s := by rw [hr] at h; exact h.2.symm
        intro x hx
        rw [hs] at hx
        rcases List.mem_cons.mp hx with hxy | hxs
        · simp [hxy, hp]
        · exact ih hnd.2 (by rw [hr, hg]) x hxs

theorem release_db (s : GState) : s.release.db = s.db := by
  unfold GState.release
  split <;> rfl

theorem release_closed (s : GState) : s.release.closed = s.closed := by
  unfold GState.release
  split <;> rfl

theorem release_handles (s : GState) : s.release.handles = s.handles := by
  unfold GState.release
  split <;> rfl

theorem release_permitSum (s : GState) : permitSum s.release = permitSum s + 1 := by
  unfold GState.release permitSum
  split <;> simp <;> omega

theorem step_db (s : GState) (e : Event) : (s.step e).db = s.db := by
  obtain ⟨db, avail, closed, queue, resolving, handles, comps⟩ := s
  cases e with
  | submit r =>
    simp only [GState.step, GState.submit]
    split <;> rfl
  | resolveReq rid =>
    simp only [GState.step, GState.resolveReq]
    split
    · rfl
    · split
      · simp [release_db]
      · rfl
  | dropHandle hid =>
    simp only [GState.step, GState.dropHandle]
    split
    · rfl
    · simp [release_db]

theorem step_closed (s : GState) (e : Event) : (s.step e).closed = s.closed := by
  obtain ⟨db, avail, closed, queue, resolving, handles, comps⟩ := s
  cases e with
  | submit r =>
    simp only [GState.step, GState.submit]
    split <;> rfl
  | resolveReq rid =>
    simp only [GState.step, GState.resolveReq]
    split
    · rfl
    · split
      · simp [release_closed]
      · rfl
  | dropHandle hid =>
    simp only [GState.step, GState.dropHandle]
    split
    · rfl
    · simp [release_closed]

theorem step_permitSum (s : GState) (e : Event) : permitSum (s.step e) = permitSum s := by
  obtain ⟨db, avail, closed, queue, resolving, handles, comps⟩ := s
  cases e with
  | submit r =>
    simp only [GState.step, GState.submit]
    split
    next hcond =>
      obtain ⟨h1, h2⟩ := hcond
      simp [permitSum]
      omega
    next hcond => simp [permitSum]
  | resolveReq rid =>
    simp only [GState.step, GState.resolveReq]
    split
    · rfl
    next r rest hE =>
      have hlen := extractFirst_some_length hE
      split
      next hS =>
        simp only [permitSum, GState.release]
        cases queue <;> simp <;> omega
      next sch hS =>
        simp [permitSum]
        omega
  | dropHandle hid =>
    simp only [GState.step, GState.dropHandle]
    split
    · rfl
    next h rest hE =>
      have hlen := extractFirst_some_length hE
      simp only [permitSum, GState.release]
      cases queue <;> simp <;> omega

theorem run_db (s : GState) (evs : List Event) : (s.run evs).db = s.db := by
  induction evs generalizing s with
  | nil => rfl
  | cons e evs ih =>
    simp only [GState.run]
    rw [ih, step_db]

theorem run_closed (s : GState) (evs : List Event) : (s.run evs).closed = s.closed := by
  induction evs generalizing s with
  | nil => rfl
  | cons e evs ih =>
    simp only [GState.run]
    rw [ih, step_closed]

theorem run_permitSum (s : GState) (evs : List Event) :
    permitSum (s.run evs) = permitSum s := by
  induction evs generalizing s with
  | nil => rfl
  | cons e evs ih =>
    simp only [GState.run]
    rw [ih, step_permitSum]

/-! ### Helper lemmas about the retrying listing operation -/

theorem listAttempt_ok {c : CatalogCache} {i : Nat} {v : List Namespace}
    (h : listAttempt c i = Except.ok v) : v = c.catalogNamespaces := by
  unfold listAttempt at h
  by_cases hf : c.listFails i
  · simp [hf] at h
  · simp [hf] at h
    exact h.symm

theorem retryAllErrors_some {op : Nat → Except String α} :
    ∀ {fuel i : Nat} {a : α}, retryAllErrors op i fuel = some a →
      ∃ j, op j = Except.ok a := by
  intro fuel
  induction fuel with
  | zero => intro i a h; simp [retryAllErrors] at h
  | succ n ih =>
    intro i a h
    unfold retryAllErrors at h
    cases hop : op i with
    | ok v =>
      rw [hop] at h
      simp only [Option.some.injEq] at h
      exact ⟨i, by rw [hop, h]⟩
    | error e =>
      rw [hop] at h
      exact ih h

theorem retryAllErrors_eventually {c : CatalogCache} :
    ∀ {fuel i : Nat}, (∃ k, i ≤ k ∧ k < i + fuel ∧ c.listFails k = false) →
      retryAllErrors (listAttempt c) i fuel = some c.catalogNamespaces := by
  intro fuel
  induction fuel with
  | zero =>
    rintro i ⟨k, h1, h2, h3⟩
    omega
  | succ n ih =>
    rintro i ⟨k, h1, h2, h3⟩
    unfold retryAllErrors
    by_cases hf : c.listFails i
    · have herr : listAttempt c i = Except.error ("transient catalog error") := by
        simp [listAttempt, hf]
      rw [herr]
      apply ih
      have hik : i ≠ k := by
        intro heq
        rw [← heq] at h3
        simp [hf] at h3
      exact ⟨k, by omega, by omega, h3⟩
    · have hok : listAttempt c i = Except.ok c.catalogNamespaces := by
        simp [listAttempt, hf]
      rw [hok]

/-! ### Concrete instances for witnesses and the scenario -/

/-- A concrete catalog: namespaces ns1, ns2, ns3 exist, every other name is
unknown; the catalog list holds ns1 and ns2; the first listing attempt
fails transiently and every later one succeeds. -/
def demoCatalog : CatalogCache :=
  { schemaOf := fun n => if n = ("ns1") ∨ n = ("ns2") ∨ n = ("ns3") then some ⟨0⟩ else none
    catalogNamespaces := [⟨("ns1")⟩, ⟨("ns2")⟩]
    listFails := fun i => i == 0
    time_provider := () }

/-- The gateway of the concurrency scenario: capacity 2 over `demoCatalog`
(the object `QuerierDatabase::new` builds for these arguments). -/
def demoDb : QuerierDatabase :=
  { backoff_config := BackoffConfig.mkDefault
    catalog_cache := demoCatalog
    chunk_adapter := ChunkAdapter.new demoCatalog ⟨()⟩ ⟨()⟩ ()
    metric_registry := ⟨()⟩
    exec := ⟨()⟩
    ingester_connection := ⟨()⟩
    query_log := QueryLog.new QUERY_LOG_SIZE ()
    query_execution_semaphore := 2 }

/-! ### Claims -/

/-- Claim C3: for every `max_concurrent_queries` up to 65,535 construction
succeeds, building the chunk adapter and query log from the supplied
collaborators and initializing the admission pool with exactly
`max_concurrent_queries` permits; for every larger value construction
fails deterministically with the assertion message, before any I/O (the
model performs none). -/
theorem new_validates (cc : CatalogCache) (mr : Registry) (st : ParquetStorage)
    (ex : Executor) (ic : IngesterConnection) (n : Nat) :
    (n ≤ QuerierDatabase.MAX_CONCURRENT_QUERIES_MAX →
      ∃ db, QuerierDatabase.new cc mr st ex ic n = Except.ok db ∧
        db.query_execution_semaphore = n ∧
        db.query_log = QueryLog.new QUERY_LOG_SIZE cc.time_provider ∧
        db.chunk_adapter = ChunkAdapter.new cc st mr cc.time_provider ∧
        db.catalog_cache = cc) ∧
    (QuerierDatabase.MAX_CONCURRENT_QUERIES_MAX < n →
      QuerierDatabase.new cc mr st ex ic n = Except.error
        ("`max_concurrent_queries` (" ++ toString n ++ ") > `max_concurrent_queries_MAX` (" ++
          toString QuerierDatabase.MAX_CONCURRENT_QUERIES_MAX ++ ")")) := by
  constructor
  · intro h
    unfold QuerierDatabase.new
    rw [if_pos h]
    exact ⟨_, rfl, rfl, rfl, rfl, rfl⟩
  · intro h
    unfold QuerierDatabase.new
    rw [if_neg (by omega)]

/-- Witness for C3: capacity 2 is accepted with a pool of exactly 2
permits; 65,536 is rejected with the message the source test expects. -/
theorem new_validates_witness :
    (∃ db, QuerierDatabase.new demoCatalog ⟨()⟩ ⟨()⟩ ⟨()⟩ ⟨()⟩ 2 = Except.ok db ∧
      db.query_execution_semaphore = 2 ∧
      db.query_log = QueryLog.new QUERY_LOG_SIZE demoCatalog.time_provider ∧
      db.chunk_adapter = ChunkAdapter.new demoCatalog ⟨()⟩ ⟨()⟩ demoCatalog.time_provider ∧
      db.catalog_cache = demoCatalog) ∧
    QuerierDatabase.new demoCatalog ⟨()⟩ ⟨()⟩ ⟨()⟩ ⟨()⟩ 65536 = Except.error
      ("`max_concurrent_queries` (65536) > `max_concurrent_queries_MAX` (65535)") := by
  constructor
  · exact (new_validates demoCatalog ⟨()⟩ ⟨()⟩ ⟨()⟩ ⟨()⟩ 2).1 (by decide)
  · have h := (new_validates demoCatalog ⟨()⟩ ⟨()⟩ ⟨()⟩ ⟨()⟩ 65536).2 (by decide)
    rw [h]
    exact congrArg Except.error (by decide)

/-- Claim C2: a request for a namespace unknown to the schema resolver
returns the absent result and leaves the semaphore exactly as it was
before the call: the permit acquired for the attempt is released. -/
theorem unknown_namespace_releases (db : QuerierDatabase) (sem : SemState) (name : Name)
    (hschema : db.catalog_cache.schemaOf name = none)
    (havail : 0 < sem.available) (hclosed : sem.closed = false) :
    (db.namespaceCall sem name).outcome = NamespaceOutcome.done none ∧
    (db.namespaceCall sem name).sem = sem := by
  obtain ⟨avail, closed⟩ := sem
  simp only at havail hclosed
  subst hclosed
  unfold QuerierDatabase.namespaceCall
  have hne : ¬ avail = 0 := by omega
  simp [hschema, hne, Nat.sub_add_cancel havail]

/-- Witness for C2: requesting the nonexistent ns9 on the demo gateway
returns absent and restores the two available permits. -/
theorem unknown_namespace_releases_witness :
    (demoDb.namespaceCall ⟨2, false⟩ ("ns9")).outcome = NamespaceOutcome.done none ∧
    (demoDb.namespaceCall ⟨2, false⟩ ("ns9")).sem = ⟨2, false⟩ :=
  unknown_namespace_releases demoDb ⟨2, false⟩ ("ns9") (by decide) (by decide) rfl

/-- Claim C4: in every execution of `namespace()`, either nothing has been
observed yet (the call is still suspended on the acquire, or panicked
before acquiring), or the trace starts with the permit acquisition
immediately followed by the schema resolution: the resolver is never
invoked before (or without) a held permit. -/
theorem permit_held_before_resolve (db : QuerierDatabase) (sem : SemState) (name : Name) :
    (db.namespaceCall sem name).trace = [] ∨
    ∃ rest, (db.namespaceCall sem name).trace =
      CallEv.acquirePermit :: CallEv.schemaResolve name :: rest := by
  unfold QuerierDatabase.namespaceCall
  by_cases hc : sem.closed
  · left; simp [hc]
  · by_cases ha : sem.available = 0
    · left; simp [hc, ha]
    · right
      cases hs : db.catalog_cache.schemaOf name with
      | none => exact ⟨[CallEv.permitDrop], by simp [hc, ha, hs]⟩
      | some sch => exact ⟨[CallEv.handleBuilt], by simp [hc, ha, hs]⟩

/-- Claim C9: the gateway never closes its semaphore: in every reachable
state the closed flag is still false, and under that flag the acquire
inside `namespace()` can never take the failure branch — the call's
outcome is never `panicked`, whatever the occupancy. -/
theorem semaphore_never_closed (db : QuerierDatabase) (evs : List Event) (name : Name)
    (avail : Nat) :
    ((GState.init db).run evs).closed = false ∧
    ∀ msg, (db.namespaceCall ⟨avail, ((GState.init db).run evs).closed⟩ name).outcome ≠
      NamespaceOutcome.panicked msg := by
  have hc : ((GState.init db).run evs).closed = false := by
    rw [run_closed]
    rfl
  refine ⟨hc, ?_⟩
  intro msg
  rw [hc]
  unfold QuerierDatabase.namespaceCall
  by_cases ha : avail = 0
  · simp [ha]
  · simp only [ha]
    cases hs : db.catalog_cache.schemaOf name <;> simp [hs, ha]

/-- Claim C10: the `QueryDatabaseProvider::db` trait entry point returns
exactly what the inherent method `namespace` returns, for every gateway,
semaphore state and name. -/
theorem db_delegates_to_namespace (db : QuerierDatabase) (sem : SemState) (name : Name) :
    db.dbCall sem name = db.namespaceCall sem name := rfl

/-- Claim C6: the listing operation depends only on the database object
(never on the semaphore fields of the state, hence not on pool occupancy);
whenever it returns a value, that value is the complete current namespace
set of the backing catalog (errors are retried, never surfaced); and as
soon as any attempt within the observation budget succeeds, it does
return that complete set. -/
theorem namespaces_list_spec (s₁ s₂ : GState) (fuel : Nat) (res : List Namespace)
    (hdb : s₁.db = s₂.db) :
    (s₁.namespacesOp fuel = s₂.namespacesOp fuel) ∧
    (s₁.namespacesOp fuel = some res → res = s₁.db.catalog_cache.catalogNamespaces) ∧
    (∀ k, k < fuel → s₁.db.catalog_cache.listFails k = false →
      s₁.namespacesOp fuel = some s₁.db.catalog_cache.catalogNamespaces) := by
  refine ⟨by unfold GState.namespacesOp; rw [hdb], ?_, ?_⟩
  · intro h
    unfold GState.namespacesOp QuerierDatabase.namespaces at h
    obtain ⟨j, hj⟩ := retryAllErrors_some h
    exact listAttempt_ok hj
  · intro k hk hf
    unfold GState.namespacesOp QuerierDatabase.namespaces
    exact retryAllErrors_eventually ⟨k, Nat.zero_le k, by omega, hf⟩

/-- Witness for C6: on the demo gateway (whose first listing attempt fails
transiently), the op ignores occupancy, and returns the full catalog
within two attempts. -/
theorem namespaces_list_spec_witness :
    ((GState.init demoDb).namespacesOp 2 =
      ({ GState.init demoDb with available := 0 } : GState).namespacesOp 2) ∧
    ([⟨("ns1")⟩, ⟨("ns2")⟩] : List Namespace) = (GState.init demoDb).db.catalog_cache.catalogNamespaces ∧
    (GState.init demoDb).namespacesOp 2 = some (GState.init demoDb).db.catalog_cache.catalogNamespaces := by
  have h := namespaces_list_spec (GState.init demoDb)
    ({ GState.init demoDb with available := 0 }) 2 [⟨("ns1")⟩, ⟨("ns2")⟩] rfl
  exact ⟨h.1, h.2.1 (by decide), h.2.2 1 (by decide) (by decide)⟩

/-- Claim C1: in every reachable state of a gateway built with capacity
`query_execution_semaphore = N`, the number of outstanding permits — live
handles plus requests currently holding a permit — is at most N; and when
N handles are live, a further `namespace()` call does not proceed: it
joins the waiter queue and no handle is produced by the acquire. -/
theorem admission_bound (db : QuerierDatabase) (evs : List Event) (r : Req) :
    ((GState.init db).run evs).handles.length + ((GState.init db).run evs).resolving.length
      ≤ db.query_execution_semaphore ∧
    (((GState.init db).run evs).handles.length = db.query_execution_semaphore →
      (((GState.init db).run evs).step (Event.submit r)).handles =
        ((GState.init db).run evs).handles ∧
      (((GState.init db).run evs).step (Event.submit r)).queue =
        ((GState.init db).run evs).queue ++ [r]) := by
  have hsum := run_permitSum (GState.init db) evs
  have hinit : permitSum (GState.init db) = db.query_execution_semaphore := by
    simp [permitSum, GState.init]
  rw [hinit] at hsum
  unfold permitSum at hsum
  constructor
  · omega
  · intro hfull
    have havail : ((GState.init db).run evs).available = 0 := by omega
    simp only [GState.step, GState.submit]
    rw [if_neg]
    · exact ⟨rfl, rfl⟩
    · rw [havail]
      simp

/-- Witness for C1 at a concrete full gateway: capacity 0 is full from the
start, so a submitted request is queued and no handle appears. -/
theorem admission_bound_witness :
    ((GState.init { demoDb with query_execution_semaphore := 0 }).run []).handles.length +
        ((GState.init { demoDb with query_execution_semaphore := 0 }).run []).resolving.length
      ≤ ({ demoDb with query_execution_semaphore := 0 } : QuerierDatabase).query_execution_semaphore ∧
    ((((GState.init { demoDb with query_execution_semaphore := 0 }).run []).step
        (Event.submit ⟨1, ("ns1")⟩)).handles =
      ((GState.init { demoDb with query_execution_semaphore := 0 }).run []).handles ∧
      (((GState.init { demoDb with query_execution_semaphore := 0 }).run []).step
        (Event.submit ⟨1, ("ns1")⟩)).queue =
      ((GState.init { demoDb with query_execution_semaphore := 0 }).run []).queue ++ [⟨1, ("ns1")⟩]) :=
  ⟨(admission_bound { demoDb with query_execution_semaphore := 0 } [] ⟨1, ("ns1")⟩).1,
   (admission_bound { demoDb with query_execution_semaphore := 0 } [] ⟨1, ("ns1")⟩).2 (by decide)⟩

/-! ### Equation lemmas for the step operations -/

theorem submit_eq_pos (s : GState) {r : Req} (hq : s.queue = []) (ha : 0 < s.available) :
    s.submit r = { s with available := s.available - 1, resolving := s.resolving ++ [r] } := by
  unfold GState.submit
  rw [if_pos]
  exact ⟨by simp [hq], ha⟩

theorem dropHandle_eq_none (s : GState) {hid : Nat}
    (hE : (extractFirst (fun x => x.hid == hid) s.handles).1 = none) :
    s.dropHandle hid = s := by
  unfold GState.dropHandle
  split
  next heq => rfl
  next a rest heq =>
    rw [heq] at hE
    simp at hE

theorem dropHandle_eq_some (s : GState) {hid : Nat} {a : Handle} {rest : List Handle}
    (hE : extractFirst (fun x => x.hid == hid) s.handles = (some a, rest)) :
    s.dropHandle hid = GState.release { s with handles := rest } := by
  unfold GState.dropHandle
  split
  next heq =>
    rw [hE] at heq
    simp at heq
  next x rest' heq =>
    rw [hE, Prod.mk.injEq, Option.some.injEq] at heq
    obtain ⟨h1, h2⟩ := heq
    rw [← h2]

theorem resolveReq_eq_found_some (s : GState) {rid : Nat} {r : Req} {rest : List Req}
    {sch : NamespaceSchema}
    (hE : extractFirst (fun q => q.rid == rid) s.resolving = (some r, rest))
    (hs : s.db.catalog_cache.schemaOf r.name = some sch) :
    s.resolveReq rid =
      { s with resolving := rest
               handles := s.handles ++ [⟨rid, r.name, sch⟩]
               completions := s.completions ++ [(rid, true)] } := by
  unfold GState.resolveReq
  split
  next heq =>
    rw [hE] at heq
    simp at heq
  next r' rest' heq =>
    rw [hE, Prod.mk.injEq, Option.some.injEq] at heq
    obtain ⟨h1, h2⟩ := heq
    subst h1
    subst h2
    split
    next hs' => rw [hs] at hs'; cases hs'
    next sch' hs' =>
      rw [hs, Option.some.injEq] at hs'
      subst hs'
      rfl

theorem resolveReq_eq_found_none (s : GState) {rid : Nat} {r : Req} {rest : List Req}
    (hE : extractFirst (fun q => q.rid == rid) s.resolving = (some r, rest))
    (hs : s.db.catalog_cache.schemaOf r.name = none) :
    s.resolveReq rid =
      { GState.release { s with resolving := rest } with
        completions :=
          (GState.release { s with resolving := rest }).completions ++ [(rid, false)] } := by
  unfold GState.resolveReq
  split
  next heq =>
    rw [hE] at heq
    simp at heq
  next r' rest' heq =>
    rw [hE, Prod.mk.injEq, Option.some.injEq] at heq
    obtain ⟨h1, h2⟩ := heq
    subst h1
    subst h2
    split
    next hs' => rfl
    next sch' hs' => rw [hs] at hs'; cases hs'

/-- Claim C5: discarding a live handle on an uncontended pool increases the
available permit count by exactly one and removes exactly one handle; with
distinct live handles the release is exactly-once (a second discard of the
same handle id is a no-op, because the handle exclusively owned its
permit); and acquiring a handle and then discarding it restores the
available capacity observed before the acquire. -/
theorem handle_discard_release (s : GState) (hid : Nat) (h : Handle) (rest : List Handle)
    (r : Req) (sch : NamespaceSchema) (hq : s.queue = []) :
    (extractFirst (fun x => x.hid == hid) s.handles = (some h, rest) →
      (s.dropHandle hid).available = s.available + 1 ∧
      (s.dropHandle hid).handles.length + 1 = s.handles.length) ∧
    ((s.handles.map Handle.hid).Nodup →
      (s.dropHandle hid).dropHandle hid = s.dropHandle hid) ∧
    (s.resolving = [] → 0 < s.available →
      s.db.catalog_cache.schemaOf r.name = some sch →
      (∀ x ∈ s.handles, x.hid ≠ r.rid) →
      (s.run [Event.submit r, Event.resolveReq r.rid, Event.dropHandle r.rid]).available
          = s.available ∧
      (s.run [Event.submit r, Event.resolveReq r.rid, Event.dropHandle r.rid]).handles
          = s.handles) := by
  refine ⟨?_, ?_, ?_⟩
  · intro hE
    rw [dropHandle_eq_some s hE]
    have hlen := extractFirst_some_length hE
    constructor
    · simp [GState.release, hq]
    · rw [release_handles]
      simpa using hlen
  · intro hnd
    cases hE : extractFirst (fun x => x.hid == hid) s.handles with
    | mk fst rest2 =>
      cases fst with
      | none =>
        have hd := dropHandle_eq_none s (by rw [hE])
        simp only [hd]
      | some a =>
        have hd := dropHandle_eq_some s hE
        rw [hd]
        have hrest : ∀ x ∈ rest2, ((fun y => y.hid == hid) x) = false :=
          extractFirst_nodup hnd hE
        have hnone : (extractFirst (fun x => x.hid == hid)
            (GState.release { s with handles := rest2 }).handles).1 = none := by
          rw [release_handles]
          exact extractFirst_none_of_all hrest
        exact dropHandle_eq_none _ hnone
  · intro hres ha hsch hfresh
    simp only [GState.run, GState.step]
    rw [submit_eq_pos s hq ha]
    set S1 : GState :=
      { s with available := s.available - 1, resolving := s.resolving ++ [r] } with hS1
    have hE1 : extractFirst (fun q => q.rid == r.rid) S1.resolving = (some r, []) := by
      rw [hS1]
      show extractFirst (fun q => q.rid == r.rid) (s.resolving ++ [r]) = (some r, [])
      rw [hres]
      simp [extractFirst]
    have hsch1 : S1.db.catalog_cache.schemaOf r.name = some sch := hsch
    rw [resolveReq_eq_found_some S1 hE1 hsch1]
    set S2 : GState :=
      { S1 with resolving := []
                handles := S1.handles ++ [(⟨r.rid, r.name, sch⟩ : Handle)]
                completions := S1.completions ++ [(r.rid, true)] } with hS2
    have hE2 : extractFirst (fun y => y.hid == r.rid) S2.handles
        = (some ⟨r.rid, r.name, sch⟩, s.handles) := by
      rw [hS2]
      show extractFirst (fun y => y.hid == r.rid)
        (S1.handles ++ [(⟨r.rid, r.name, sch⟩ : Handle)]) = _
      have hh : S1.handles = s.handles := rfl
      have hneg : ∀ x ∈ S1.handles, ((fun y => y.hid == r.rid) x) = false := by
        intro x hx
        rw [hh] at hx
        simpa using hfresh x hx
      rw [extractFirst_append_of_all_neg _ hneg, hh]
      simp [extractFirst]
    rw [dropHandle_eq_some S2 hE2]
    constructor
    · simp only [GState.release, hq]
      show s.available - 1 + 1 = s.available
      omega
    · rw [release_handles]

/-- A concrete state for the C5 witness: one live handle (id 1), two free
permits, empty queue, on the demo gateway. -/
def demoState : GState :=
  { db := demoDb
    available := 2
    closed := false
    queue := []
    resolving := []
    handles := [⟨1, ("ns1"), ⟨0⟩⟩]
    completions := [] }

/-- Witness for C5 on `demoState`: discarding handle 1 frees one permit,
a second discard of the same id is a no-op, and acquiring then discarding
a handle for ns2 restores the available count. -/
theorem handle_discard_release_witness :
    ((demoState.dropHandle 1).available = demoState.available + 1 ∧
      (demoState.dropHandle 1).handles.length + 1 = demoState.handles.length) ∧
    ((demoState.dropHandle 1).dropHandle 1 = demoState.dropHandle 1) ∧
    ((demoState.run [Event.submit ⟨2, ("ns2")⟩, Event.resolveReq 2,
        Event.dropHandle 2]).available = demoState.available ∧
      (demoState.run [Event.submit ⟨2, ("ns2")⟩, Event.resolveReq 2,
        Event.dropHandle 2]).handles = demoState.handles) := by
  have h := handle_discard_release demoState 1 ⟨1, ("ns1"), ⟨0⟩⟩ [] ⟨2, ("ns2")⟩ ⟨0⟩ rfl
  exact ⟨h.1 (by decide), h.2.1 (by decide), h.2.2 rfl (by decide) (by decide) (by decide)⟩

/-- Claim C7: two requests for the same existing namespace name, admitted
concurrently, are never deduplicated or merged: each consumes its own
permit (available drops by two) and each yields its own independent
handle. -/
theorem same_name_no_dedup (s : GState) (r₁ r₂ : Req) (sch : NamespaceSchema)
    (hq : s.queue = []) (hres : s.resolving = [])
    (ha : 2 ≤ s.available)
    (hname : r₂.name = r₁.name)
    (hsch : s.db.catalog_cache.schemaOf r₁.name = some sch)
    (hrid : r₁.rid ≠ r₂.rid) :
    (s.run [Event.submit r₁, Event.submit r₂, Event.resolveReq r₁.rid,
        Event.resolveReq r₂.rid]).handles
      = s.handles ++ [⟨r₁.rid, r₁.name, sch⟩, ⟨r₂.rid, r₂.name, sch⟩] ∧
    (s.run [Event.submit r₁, Event.submit r₂, Event.resolveReq r₁.rid,
        Event.resolveReq r₂.rid]).available + 2 = s.available ∧
    (⟨r₁.rid, r₁.name, sch⟩ : Handle) ≠ ⟨r₂.rid, r₂.name, sch⟩ := by
  simp only [GState.run, GState.step]
  rw [submit_eq_pos s hq (by omega)]
  set S1 : GState :=
    { s with available := s.available - 1, resolving := s.resolving ++ [r₁] } with hS1
  have hq1 : S1.queue = [] := hq
  have ha1 : 0 < S1.available := by
    rw [hS1]
    show 0 < s.available - 1
    omega
  rw [submit_eq_pos S1 hq1 ha1]
  set S2 : GState :=
    { S1 with available := S1.available - 1, resolving := S1.resolving ++ [r₂] } with hS2
  have hE1 : extractFirst (fun q => q.rid == r₁.rid) S2.resolving = (some r₁, [r₂]) := by
    rw [hS2, hS1]
    show extractFirst (fun q => q.rid == r₁.rid) ((s.resolving ++ [r₁]) ++ [r₂]) = _
    rw [hres]
    simp [extractFirst]
  have hsch2 : S2.db.catalog_cache.schemaOf r₁.name = some sch := hsch
  rw [resolveReq_eq_found_some S2 hE1 hsch2]
  set S3 : GState :=
    { S2 with resolving := [r₂]
              handles := S2.handles ++ [(⟨r₁.rid, r₁.name, sch⟩ : Handle)]
              completions := S2.completions ++ [(r₁.rid, true)] } with hS3
  have hE2 : extractFirst (fun q => q.rid == r₂.rid) S3.resolving = (some r₂, []) := by
    rw [hS3]
    show extractFirst (fun q => q.rid == r₂.rid) [r₂] = _
    simp [extractFirst]
  have hsch3 : S3.db.catalog_cache.schemaOf r₂.name = some sch := by
    rw [hname]
    exact hsch
  rw [resolveReq_eq_found_some S3 hE2 hsch3]
  refine ⟨?_, ?_, ?_⟩
  · show (S3.handles ++ [(⟨r₂.rid, r₂.name, sch⟩ : Handle)])
        = s.handles ++ [⟨r₁.rid, r₁.name, sch⟩, ⟨r₂.rid, r₂.name, sch⟩]
    rw [hS3]
    show (S2.handles ++ [(⟨r₁.rid, r₁.name, sch⟩ : Handle)])
        ++ [(⟨r₂.rid, r₂.name, sch⟩ : Handle)] = _
    have hh : S2.handles = s.handles := rfl
    rw [hh, List.append_assoc]
    rfl
  · show S3.available + 2 = s.available
    rw [hS3]
    show S2.available + 2 = s.available
    rw [hS2]
    show S1.available - 1 + 2 = s.available
    rw [hS1]
    show s.available - 1 - 1 + 2 = s.available
    omega
  · simp [hrid]

/-- Witness for C7: two concurrent requests for ns1 on the fresh demo
gateway produce two distinct handles and consume both permits. -/
theorem same_name_no_dedup_witness :
    ((GState.init demoDb).run [Event.submit ⟨1, ("ns1")⟩, Event.submit ⟨2, ("ns1")⟩,
        Event.resolveReq 1, Event.resolveReq 2]).handles
      = (GState.init demoDb).handles ++ [⟨1, ("ns1"), ⟨0⟩⟩, ⟨2, ("ns1"), ⟨0⟩⟩] ∧
    ((GState.init demoDb).run [Event.submit ⟨1, ("ns1")⟩, Event.submit ⟨2, ("ns1")⟩,
        Event.resolveReq 1, Event.resolveReq 2]).available + 2
      = (GState.init demoDb).available ∧
    (⟨1, ("ns1"), ⟨0⟩⟩ : Handle) ≠ ⟨2, ("ns1"), ⟨0⟩⟩ :=
  same_name_no_dedup (GState.init demoDb) ⟨1, ("ns1")⟩ ⟨2, ("ns1")⟩ ⟨0⟩
    rfl rfl (by decide) rfl (by decide) (by decide)

/-! ### The §8 / `test_namespace_semaphore` scenario -/

/-- Phase 1: acquire handles for ns1 (request 1) and ns2 (request 2), then
submit four more requests — ns3 (3), ns1 again (4), ns9 (5, nonexistent),
ns2 again (6) — against the now-empty pool. -/
def scenarioPhase1 : List Event :=
  [Event.submit ⟨1, ("ns1")⟩, Event.resolveReq 1,
   Event.submit ⟨2, ("ns2")⟩, Event.resolveReq 2,
   Event.submit ⟨3, ("ns3")⟩, Event.submit ⟨4, ("ns1")⟩,
   Event.submit ⟨5, ("ns9")⟩, Event.submit ⟨6, ("ns2")⟩]

/-- Phase 2: drop the ns2 handle; the freed permit goes to the earliest
pending request (ns3), which resolves. -/
def scenarioPhase2 : List Event :=
  scenarioPhase1 ++ [Event.dropHandle 2, Event.resolveReq 3]

/-- Phase 3: drop the ns3 handle; the next pending request (ns1 again)
completes. -/
def scenarioPhase3 : List Event :=
  scenarioPhase2 ++ [Event.dropHandle 3, Event.resolveReq 4]

/-- Phase 4: drop the original ns1 handle; the ns9 request resolves to
absent, freeing its permit immediately for the final ns2 request. -/
def scenarioPhase4 : List Event :=
  scenarioPhase3 ++ [Event.dropHandle 1, Event.resolveReq 5, Event.resolveReq 6]

/-- Claim C8: on a gateway of capacity 2 (the one `new` builds for the demo
catalog), with handles held for ns1 and ns2 and four requests pending in
order ns3, ns1, ns9, ns2: each discard lets exactly one pending request
proceed — the earliest-pending one — so completions happen in exactly that
order; ns9 completes absent and its freed slot immediately serves the
final ns2 request. -/
theorem scenario_fifo_order :
    QuerierDatabase.new demoCatalog ⟨()⟩ ⟨()⟩ ⟨()⟩ ⟨()⟩ 2 = Except.ok demoDb ∧
    ((GState.init demoDb).run scenarioPhase1).completions = [(1, true), (2, true)] ∧
    ((GState.init demoDb).run scenarioPhase1).available = 0 ∧
    ((GState.init demoDb).run scenarioPhase1).queue =
      [⟨3, ("ns3")⟩, ⟨4, ("ns1")⟩, ⟨5, ("ns9")⟩, ⟨6, ("ns2")⟩] ∧
    ((GState.init demoDb).run scenarioPhase2).completions =
      [(1, true), (2, true), (3, true)] ∧
    ((GState.init demoDb).run scenarioPhase2).queue =
      [⟨4, ("ns1")⟩, ⟨5, ("ns9")⟩, ⟨6, ("ns2")⟩] ∧
    ((GState.init demoDb).run scenarioPhase3).completions =
      [(1, true), (2, true), (3, true), (4, true)] ∧
    ((GState.init demoDb).run scenarioPhase3).queue = [⟨5, ("ns9")⟩, ⟨6, ("ns2")⟩] ∧
    ((GState.init demoDb).run scenarioPhase4).completions =
      [(1, true), (2, true), (3, true), (4, true), (5, false), (6, true)] ∧
    ((GState.init demoDb).run scenarioPhase4).queue = [] ∧
    List.map (fun h => (h.hid, h.hname)) ((GState.init demoDb).run scenarioPhase4).handles =
      [(4, ("ns1")), (6, ("ns2"))] := by
  refine ⟨rfl, ?_⟩
  decide
